import Mathlib

/-!
Verification of the Pong physics code in `src/main.py`.

The game's geometry and physics (`Vector2D`, `Paddle`, `Ball`, and the
collision phase of `Game.update`) are embedded below as Lean definitions
over the real numbers, following the Python source line by line.
Rendering, menus and I/O are irrelevant to the verified properties and
are not modelled.  Randomness in `Ball.reset` is modelled by passing the
drawn angle and direction as explicit arguments.
-/

namespace Pong

/-- `WINDOW_WIDTH = 1080` from main.py. -/
def WINDOW_WIDTH : ℝ := 1080

/-- `WINDOW_HEIGHT = 720` from main.py. -/
def WINDOW_HEIGHT : ℝ := 720

/-- `MAX_BOUNCE_ANGLE = math.radians(60)`, i.e. `60 * π / 180`. -/
noncomputable def MAX_BOUNCE_ANGLE : ℝ := 60 * Real.pi / 180

/-- `Vector2D` from main.py: a pair of real coordinates. -/
structure Vector2D where
  x : ℝ
  y : ℝ

/-- `Vector2D.__add__`. -/
def Vector2D.add (v w : Vector2D) : Vector2D := ⟨v.x + w.x, v.y + w.y⟩

/-- `Vector2D.__sub__`. -/
def Vector2D.sub (v w : Vector2D) : Vector2D := ⟨v.x - w.x, v.y - w.y⟩

/-- `Vector2D.__mul__` (scalar on the right, as in the source). -/
def Vector2D.smul (v : Vector2D) (s : ℝ) : Vector2D := ⟨v.x * s, v.y * s⟩

/-- `Vector2D.__truediv__`. -/
noncomputable def Vector2D.div (v : Vector2D) (s : ℝ) : Vector2D := ⟨v.x / s, v.y / s⟩

/-- `Vector2D.dot`. -/
def Vector2D.dot (v w : Vector2D) : ℝ := v.x * w.x + v.y * w.y

/-- `Vector2D.magnitude`: `math.sqrt(self.x**2 + self.y**2)`. -/
noncomputable def Vector2D.magnitude (v : Vector2D) : ℝ :=
  Real.sqrt (v.x ^ 2 + v.y ^ 2)

/-- `Vector2D.normalize`: returns the zero vector when the magnitude is `0`,
otherwise divides each coordinate by the magnitude. -/
noncomputable def Vector2D.normalize (v : Vector2D) : Vector2D :=
  if v.magnitude = 0 then ⟨0, 0⟩ else ⟨v.x / v.magnitude, v.y / v.magnitude⟩

/-- `Vector2D.reflect`: `V - 2 (V · N̂) N̂` with `N̂` the normalized normal. -/
noncomputable def Vector2D.reflect (v normal : Vector2D) : Vector2D :=
  let normal_normalized := normal.normalize
  let dot_product := v.dot normal_normalized
  v.sub (normal_normalized.smul (2 * dot_product))

/-- `Paddle` from main.py. -/
structure Paddle where
  position : Vector2D
  width : ℝ
  height : ℝ
  velocity : Vector2D
  speed : ℝ

/-- `Paddle.move`: set velocity, integrate position by `velocity * dt`,
then clamp `position.y` so the paddle stays on screen. -/
noncomputable def Paddle.move (p : Paddle) (direction dt speed_multiplier : ℝ) : Paddle :=
  let velocity := Vector2D.mk 0 (direction * p.speed * speed_multiplier)
  let position := p.position.add (velocity.smul dt)
  let clamped_y :=
    if position.y < 0 then 0
    else if position.y + p.height > WINDOW_HEIGHT then WINDOW_HEIGHT - p.height
    else position.y
  { p with velocity := velocity, position := ⟨position.x, clamped_y⟩ }

/-- `Ball` from main.py. -/
structure Ball where
  position : Vector2D
  velocity : Vector2D
  radius : ℝ
  base_speed : ℝ
  speed_multiplier : ℝ
  acceleration_enabled : Bool
  acceleration_factor : ℝ

/-- The `direction = 1 if self.velocity.x < 0 else -1` step of
`Ball.reflect_from_paddle`. -/
noncomputable def Ball.bounce_direction (b : Ball) : ℝ :=
  if b.velocity.x < 0 then 1 else -1

/-- The bounce angle computed by `Ball.reflect_from_paddle`:
offset from the paddle center, normalized to `[-1, 1]`, times
`MAX_BOUNCE_ANGLE`. -/
noncomputable def Ball.bounce_angle (b : Ball) (p : Paddle) : ℝ :=
  let paddle_center_y := p.position.y + p.height / 2
  let offset := b.position.y - paddle_center_y
  let normalized_offset := max (-1) (min 1 (offset / (p.height / 2)))
  normalized_offset * MAX_BOUNCE_ANGLE

/-- `Ball.reflect_from_paddle`: new velocity from the bounce angle, the
direction flip, and the (possibly accelerated) preserved speed. -/
noncomputable def Ball.reflect_from_paddle (b : Ball) (p : Paddle) : Ball :=
  let bounce_angle := b.bounce_angle p
  let direction := b.bounce_direction
  let speed0 := b.velocity.magnitude
  let speed := if b.acceleration_enabled then speed0 * b.acceleration_factor else speed0
  { b with velocity := ⟨Real.cos bounce_angle * speed * direction,
                        Real.sin bounce_angle * speed⟩ }

/-- The distance computed by `Ball.check_paddle_collision`: the magnitude of
the vector from the closest point of the paddle rectangle (each coordinate
clamped independently) to the ball center. -/
noncomputable def Ball.paddle_distance (b : Ball) (p : Paddle) : ℝ :=
  let closest_x := max p.position.x (min b.position.x (p.position.x + p.width))
  let closest_y := max p.position.y (min b.position.y (p.position.y + p.height))
  let closest_point : Vector2D := ⟨closest_x, closest_y⟩
  let distance_vec := b.position.sub closest_point
  distance_vec.magnitude

/-- The collision response branch of `Ball.check_paddle_collision`:
reflect from the paddle, then push the ball out horizontally by the
overlap (using the sign of the new velocity, since `reflect_from_paddle`
has already run). -/
noncomputable def Ball.paddle_respond (b : Ball) (p : Paddle) : Ball :=
  let b1 := b.reflect_from_paddle p
  let overlap := b.radius - b.paddle_distance p
  if overlap > 0 then
    let push_x : ℝ := if b1.velocity.x > 0 then 1 else -1
    { b1 with position := ⟨b1.position.x + push_x * overlap, b1.position.y⟩ }
  else b1

/-- `Ball.check_paddle_collision`: collide exactly when the closest-point
distance is `≤ radius`; on collision run the response.  Returns the updated
ball and the boolean result of the Python method. -/
noncomputable def Ball.check_paddle_collision (b : Ball) (p : Paddle) : Ball × Bool :=
  if b.paddle_distance p ≤ b.radius then (b.paddle_respond p, true) else (b, false)

/-- `Ball.check_wall_collision`: reflect off the top wall (normal `(0, 1)`)
or else the bottom wall (normal `(0, -1)`), clamping `position.y` back to
the boundary. -/
noncomputable def Ball.check_wall_collision (b : Ball) : Ball × Bool :=
  if b.position.y - b.radius ≤ 0 then
    ({ b with velocity := b.velocity.reflect ⟨0, 1⟩,
              position := ⟨b.position.x, b.radius⟩ }, true)
  else if b.position.y + b.radius ≥ WINDOW_HEIGHT then
    ({ b with velocity := b.velocity.reflect ⟨0, -1⟩,
              position := ⟨b.position.x, WINDOW_HEIGHT - b.radius⟩ }, true)
  else (b, false)

/-- Which player scored, as returned by `Ball.check_score`. -/
inductive Scorer where
  | left
  | right
deriving DecidableEq, Repr

/-- `Ball.check_score`: a pure query on the ball state. -/
noncomputable def Ball.check_score (b : Ball) : Option Scorer :=
  if b.position.x - b.radius ≤ 0 then some Scorer.right
  else if b.position.x + b.radius ≥ WINDOW_WIDTH then some Scorer.left
  else none

/-- `Ball.reset`: place the ball at `(x, y)` and give it base speed along
the drawn `angle` and horizontal `direction` (the two random draws are
passed as arguments). -/
noncomputable def Ball.reset (b : Ball) (x y angle direction : ℝ) : Ball :=
  { b with position := ⟨x, y⟩,
           velocity := ⟨Real.cos angle * direction * b.base_speed,
                        Real.sin angle * b.base_speed⟩ }

/-- The collision phase of `Game.update`: ball vs left paddle, then ball vs
right paddle, then ball vs walls, exactly in the source's statement order. -/
noncomputable def collisionPhase (b : Ball) (lp rp : Paddle) : Ball :=
  let b1 := (b.check_paddle_collision lp).1
  let b2 := (b1.check_paddle_collision rp).1
  (b2.check_wall_collision).1

/-- Modelled from the spec: the collision order the spec prescribes, as a
pipeline of the three checks with the left paddle first. -/
noncomputable def collisionPhaseSpec (lp rp : Paddle) : Ball → Ball :=
  (fun b => (b.check_wall_collision).1) ∘
    (fun b => (b.check_paddle_collision rp).1) ∘
      (fun b => (b.check_paddle_collision lp).1)

/-! ### Helper lemmas -/

lemma magnitude_nonneg (v : Vector2D) : 0 ≤ v.magnitude :=
  Real.sqrt_nonneg _

lemma magnitude_eq_zero_iff (v : Vector2D) : v.magnitude = 0 ↔ v = ⟨0, 0⟩ := by
  unfold Vector2D.magnitude
  rw [Real.sqrt_eq_zero']
  constructor
  · intro h
    have hx : v.x = 0 := by nlinarith [sq_nonneg v.x, sq_nonneg v.y]
    have hy : v.y = 0 := by nlinarith [sq_nonneg v.x, sq_nonneg v.y]
    cases v
    simp_all
  · intro h
    rw [h]
    norm_num

lemma reflect_unit_up (v : Vector2D) : v.reflect ⟨0, 1⟩ = ⟨v.x, -v.y⟩ := by
  have h1 : Vector2D.magnitude ⟨0, 1⟩ = 1 := by
    simp [Vector2D.magnitude]
  have h2 : Vector2D.normalize ⟨0, 1⟩ = ⟨0, 1⟩ := by
    rw [Vector2D.normalize, h1]
    norm_num
  simp only [Vector2D.reflect, h2, Vector2D.dot, Vector2D.sub, Vector2D.smul,
    Vector2D.mk.injEq]
  refine ⟨by ring, by ring⟩

lemma reflect_unit_down (v : Vector2D) : v.reflect ⟨0, -1⟩ = ⟨v.x, -v.y⟩ := by
  have h1 : Vector2D.magnitude ⟨0, -1⟩ = 1 := by
    simp [Vector2D.magnitude]
  have h2 : Vector2D.normalize ⟨0, -1⟩ = ⟨0, -1⟩ := by
    rw [Vector2D.normalize, h1]
    norm_num
  simp only [Vector2D.reflect, h2, Vector2D.dot, Vector2D.sub, Vector2D.smul,
    Vector2D.mk.injEq]
  refine ⟨by ring, by ring⟩

/-! ### C8: `normalize` on the zero vector -/

/-- C8: `normalize()` on the zero vector returns the zero vector (the
degenerate-input policy), and on every nonzero vector it divides the vector
by its magnitude. -/
theorem normalize_total_and_correct :
    Vector2D.normalize ⟨0, 0⟩ = ⟨0, 0⟩ ∧
    ∀ v : Vector2D, v ≠ ⟨0, 0⟩ → v.normalize = v.div v.magnitude := by
  constructor
  · rw [Vector2D.normalize]
    have : Vector2D.magnitude ⟨0, 0⟩ = 0 := by
      simp [Vector2D.magnitude]
    rw [this]
    norm_num
  · intro v hv
    have hm : v.magnitude ≠ 0 := fun h => hv ((magnitude_eq_zero_iff v).1 h)
    rw [Vector2D.normalize, if_neg hm, Vector2D.div]

/-- Witness for C8 at the concrete vector `(3, 4)`. -/
theorem normalize_total_and_correct_witness :
    Vector2D.normalize ⟨3, 4⟩ = Vector2D.div ⟨3, 4⟩ (Vector2D.magnitude ⟨3, 4⟩) :=
  normalize_total_and_correct.2 ⟨3, 4⟩ (by
    intro h
    have := congrArg Vector2D.x h
    norm_num at this)

/-! ### C5: `check_score` -/

/-- C5: `check_score` returns `right` exactly on the left-boundary
condition, `left` on the right-boundary condition when the first fails,
and `none` otherwise.  (It is modelled as a pure query: the Python method
only reads the ball.) -/
theorem check_score_spec (b : Ball) :
    (b.position.x - b.radius ≤ 0 → b.check_score = some Scorer.right) ∧
    (¬(b.position.x - b.radius ≤ 0) → b.position.x + b.radius ≥ WINDOW_WIDTH →
      b.check_score = some Scorer.left) ∧
    (¬(b.position.x - b.radius ≤ 0) → ¬(b.position.x + b.radius ≥ WINDOW_WIDTH) →
      b.check_score = none) := by
  unfold Ball.check_score
  refine ⟨fun h => ?_, fun h1 h2 => ?_, fun h1 h2 => ?_⟩
  · rw [if_pos h]
  · rw [if_neg h1, if_pos h2]
  · rw [if_neg h1, if_neg h2]

/-- A sample ball used in witnesses: centered, radius 8, moving, base data
as in `Ball.__init__`. -/
noncomputable def sampleBall : Ball :=
  { position := ⟨540, 360⟩
    velocity := ⟨300, 100⟩
    radius := 8
    base_speed := 400
    speed_multiplier := 1
    acceleration_enabled := true
    acceleration_factor := 1.05 }

/-- Witness for C5: the sample ball near the left boundary is scored for
the right player. -/
theorem check_score_spec_witness :
    Ball.check_score { sampleBall with position := ⟨5, 360⟩ } = some Scorer.right :=
  (check_score_spec _).1 (by norm_num [sampleBall])

/-! ### C7: `Paddle.move` clamps the paddle to the board -/

/-- C7: `move` sets the velocity to `(0, direction * speed * multiplier)`,
leaves `x` alone, clamps the integrated `y` into
`[0, WINDOW_HEIGHT - height]`, and hence keeps the paddle on the board. -/
theorem move_keeps_paddle_on_board (p : Paddle) (direction dt speed_multiplier : ℝ)
    (hh : p.height ≤ WINDOW_HEIGHT) :
    (p.move direction dt speed_multiplier).velocity =
      ⟨0, direction * p.speed * speed_multiplier⟩ ∧
    (p.move direction dt speed_multiplier).position.x = p.position.x ∧
    (p.move direction dt speed_multiplier).position.y =
      max 0 (min (WINDOW_HEIGHT - p.height)
        (p.position.y + direction * p.speed * speed_multiplier * dt)) ∧
    0 ≤ (p.move direction dt speed_multiplier).position.y ∧
    (p.move direction dt speed_multiplier).position.y ≤ WINDOW_HEIGHT - p.height := by
  have hH : (0 : ℝ) ≤ WINDOW_HEIGHT - p.height := by linarith
  have hy : (p.move direction dt speed_multiplier).position.y =
      (if p.position.y + direction * p.speed * speed_multiplier * dt < 0 then (0 : ℝ)
       else if p.position.y + direction * p.speed * speed_multiplier * dt + p.height >
          WINDOW_HEIGHT then WINDOW_HEIGHT - p.height
       else p.position.y + direction * p.speed * speed_multiplier * dt) := rfl
  refine ⟨rfl, ?_, ?_, ?_, ?_⟩
  · show p.position.x + 0 * dt = p.position.x
    ring
  · rw [hy]
    split_ifs with h1 h2
    · rw [min_eq_right (by linarith), max_eq_left (by linarith)]
    · rw [min_eq_left (by linarith), max_eq_right hH]
    · rw [min_eq_right (by linarith), max_eq_right (by linarith)]
  · rw [hy]
    split_ifs with h1 h2 <;> [exact le_refl 0; exact hH; linarith]
  · rw [hy]
    split_ifs with h1 h2 <;> [exact hH; exact le_refl _; linarith]

/-- A sample paddle as constructed for the left player in `Game.__init__`. -/
def samplePaddle : Paddle :=
  { position := ⟨50, 310⟩
    width := 15
    height := 100
    velocity := ⟨0, 0⟩
    speed := 400 }

/-- Witness for C7 at the sample paddle moving down for one second. -/
theorem move_keeps_paddle_on_board_witness :
    0 ≤ (samplePaddle.move 1 1 1).position.y ∧
    (samplePaddle.move 1 1 1).position.y ≤ WINDOW_HEIGHT - samplePaddle.height :=
  ⟨(move_keeps_paddle_on_board samplePaddle 1 1 1
      (by norm_num [samplePaddle, WINDOW_HEIGHT])).2.2.2.1,
   (move_keeps_paddle_on_board samplePaddle 1 1 1
      (by norm_num [samplePaddle, WINDOW_HEIGHT])).2.2.2.2⟩

/-! ### C3: `check_wall_collision` -/

/-- C3: on a top-wall hit the vertical velocity component inverts, the
horizontal component is unchanged, and `position.y` is clamped to
`radius`; on a bottom-wall hit (when the top condition fails) the same
reflection happens and `position.y` is clamped to
`WINDOW_HEIGHT - radius`; in particular a ball at `y = radius` moving
upward ends with its vertical velocity inverted and `y = radius`. -/
theorem check_wall_collision_spec (b : Ball) :
    (b.position.y - b.radius ≤ 0 →
      b.check_wall_collision =
        ({ b with velocity := ⟨b.velocity.x, -b.velocity.y⟩,
                  position := ⟨b.position.x, b.radius⟩ }, true)) ∧
    (¬(b.position.y - b.radius ≤ 0) → b.position.y + b.radius ≥ WINDOW_HEIGHT →
      b.check_wall_collision =
        ({ b with velocity := ⟨b.velocity.x, -b.velocity.y⟩,
                  position := ⟨b.position.x, WINDOW_HEIGHT - b.radius⟩ }, true)) ∧
    (b.position.y = b.radius → b.velocity.y < 0 →
      (b.check_wall_collision).1.velocity = ⟨b.velocity.x, -b.velocity.y⟩ ∧
      (b.check_wall_collision).1.position.y = b.radius) := by
  refine ⟨fun h => ?_, fun h1 h2 => ?_, fun hy _ => ?_⟩
  · rw [Ball.check_wall_collision, if_pos h, reflect_unit_up]
  · rw [Ball.check_wall_collision, if_neg h1, if_pos h2, reflect_unit_down]
  · have h : b.position.y - b.radius ≤ 0 := by rw [hy]; simp
    rw [Ball.check_wall_collision, if_pos h, reflect_unit_up]
    exact ⟨rfl, rfl⟩

/-- Witness for C3: the sample ball at the top wall moving upward has its
vertical velocity inverted and its `y` clamped to the radius. -/
theorem check_wall_collision_spec_witness :
    (Ball.check_wall_collision
        { sampleBall with position := ⟨540, 8⟩, velocity := ⟨300, -100⟩ }).1.velocity =
      ⟨300, 100⟩ ∧
    (Ball.check_wall_collision
        { sampleBall with position := ⟨540, 8⟩, velocity := ⟨300, -100⟩ }).1.position.y = 8 := by
  have h := (check_wall_collision_spec
    { sampleBall with position := ⟨540, 8⟩, velocity := ⟨300, -100⟩ }).2.2
    (by norm_num [sampleBall]) (by norm_num [sampleBall])
  exact ⟨by rw [h.1]; norm_num [sampleBall], by rw [h.2]; norm_num [sampleBall]⟩

/-! ### Bounce-angle helper lemmas -/

lemma MAX_BOUNCE_ANGLE_eq : MAX_BOUNCE_ANGLE = Real.pi / 3 := by
  unfold MAX_BOUNCE_ANGLE
  ring

lemma MAX_BOUNCE_ANGLE_nonneg : 0 ≤ MAX_BOUNCE_ANGLE := by
  rw [MAX_BOUNCE_ANGLE_eq]
  positivity

lemma bounce_angle_abs_le (b : Ball) (p : Paddle) :
    |b.bounce_angle p| ≤ MAX_BOUNCE_ANGLE := by
  unfold Ball.bounce_angle
  rw [abs_mul, abs_of_nonneg MAX_BOUNCE_ANGLE_nonneg]
  have h : |max (-1) (min 1 ((b.position.y - (p.position.y + p.height / 2)) /
      (p.height / 2)))| ≤ 1 :=
    abs_le.2 ⟨le_max_left _ _, max_le (by norm_num) (min_le_left _ _)⟩
  exact mul_le_of_le_one_left MAX_BOUNCE_ANGLE_nonneg h

lemma cos_bounce_angle_nonneg (b : Ball) (p : Paddle) :
    0 ≤ Real.cos (b.bounce_angle p) := by
  have h := bounce_angle_abs_le b p
  rw [MAX_BOUNCE_ANGLE_eq] at h
  obtain ⟨hl, hr⟩ := abs_le.1 h
  have hpi := Real.pi_pos
  exact Real.cos_nonneg_of_mem_Icc ⟨by linarith, by linarith⟩

lemma bounce_direction_sq (b : Ball) : b.bounce_direction ^ 2 = 1 := by
  unfold Ball.bounce_direction
  split_ifs <;> norm_num

lemma bounce_direction_abs (b : Ball) : |b.bounce_direction| = 1 := by
  unfold Ball.bounce_direction
  split_ifs <;> norm_num

lemma abs_sin_le_sqrt3_cos {a : ℝ} (ha : |a| ≤ Real.pi / 3) :
    |Real.sin a| ≤ Real.sqrt 3 * Real.cos a := by
  have hpi := Real.pi_pos
  obtain ⟨hl, hr⟩ := abs_le.1 ha
  have h1 : 0 ≤ Real.cos (a + Real.pi / 6) :=
    Real.cos_nonneg_of_mem_Icc ⟨by linarith, by linarith⟩
  have h2 : 0 ≤ Real.cos (a - Real.pi / 6) :=
    Real.cos_nonneg_of_mem_Icc ⟨by linarith, by linarith⟩
  rw [Real.cos_add, Real.cos_pi_div_six, Real.sin_pi_div_six] at h1
  rw [Real.cos_sub, Real.cos_pi_div_six, Real.sin_pi_div_six] at h2
  have h3 : (0 : ℝ) ≤ Real.sqrt 3 := Real.sqrt_nonneg 3
  rw [abs_le]
  constructor <;> nlinarith [h1, h2, h3]

/-- The post-bounce speed of `reflect_from_paddle`, factored out: the prior
speed times the acceleration factor when acceleration is on. -/
noncomputable def Ball.post_bounce_speed (b : Ball) : ℝ :=
  if b.acceleration_enabled then b.velocity.magnitude * b.acceleration_factor
  else b.velocity.magnitude

lemma post_bounce_speed_nonneg (b : Ball) (hf : 0 ≤ b.acceleration_factor) :
    0 ≤ b.post_bounce_speed := by
  unfold Ball.post_bounce_speed
  split_ifs
  · exact mul_nonneg (magnitude_nonneg _) hf
  · exact magnitude_nonneg _

lemma reflect_from_paddle_velocity_eq (b : Ball) (p : Paddle) :
    (b.reflect_from_paddle p).velocity =
      ⟨Real.cos (b.bounce_angle p) * b.post_bounce_speed * b.bounce_direction,
       Real.sin (b.bounce_angle p) * b.post_bounce_speed⟩ := rfl

lemma reflect_from_paddle_speed (b : Ball) (p : Paddle) (hf : 0 ≤ b.acceleration_factor) :
    (b.reflect_from_paddle p).velocity.magnitude = b.post_bounce_speed := by
  rw [reflect_from_paddle_velocity_eq]
  unfold Vector2D.magnitude
  have hs := post_bounce_speed_nonneg b hf
  have hd := bounce_direction_sq b
  have hpy := Real.sin_sq_add_cos_sq (b.bounce_angle p)
  have key : (Real.cos (b.bounce_angle p) * b.post_bounce_speed * b.bounce_direction) ^ 2 +
      (Real.sin (b.bounce_angle p) * b.post_bounce_speed) ^ 2 =
      b.post_bounce_speed ^ 2 := by
    linear_combination (Real.cos (b.bounce_angle p)) ^ 2 * b.post_bounce_speed ^ 2 * hd +
      b.post_bounce_speed ^ 2 * hpy
  rw [key]
  exact Real.sqrt_sq hs

/-! ### C2: the paddle bounce velocity -/

/-- C2: the post-bounce velocity is
`(cos(bounceAngle) * speed * direction, sin(bounceAngle) * speed)` where the
bounce angle is the clamped, normalized offset times `MAX_BOUNCE_ANGLE`, the
direction opposes the sign of the incoming horizontal velocity, the bounce
angle never exceeds 60° in magnitude, and consequently the outgoing
velocity makes an angle of at most 60° with the horizontal
(`|v.y| ≤ √3 * |v.x|`). -/
theorem reflect_from_paddle_velocity (b : Ball) (p : Paddle)
    (hf : 0 ≤ b.acceleration_factor) :
    ((b.reflect_from_paddle p).velocity =
      ⟨Real.cos (b.bounce_angle p) * b.post_bounce_speed * b.bounce_direction,
       Real.sin (b.bounce_angle p) * b.post_bounce_speed⟩) ∧
    (b.bounce_angle p =
      max (-1) (min 1 ((b.position.y - (p.position.y + p.height / 2)) / (p.height / 2))) *
        MAX_BOUNCE_ANGLE) ∧
    (b.velocity.x < 0 → b.bounce_direction = 1) ∧
    (0 < b.velocity.x → b.bounce_direction = -1) ∧
    |b.bounce_angle p| ≤ MAX_BOUNCE_ANGLE ∧
    |(b.reflect_from_paddle p).velocity.y| ≤
      Real.sqrt 3 * |(b.reflect_from_paddle p).velocity.x| := by
  refine ⟨reflect_from_paddle_velocity_eq b p, rfl, ?_, ?_, bounce_angle_abs_le b p, ?_⟩
  · intro h
    unfold Ball.bounce_direction
    rw [if_pos h]
  · intro h
    unfold Ball.bounce_direction
    rw [if_neg (by linarith)]
  · have hba : |b.bounce_angle p| ≤ Real.pi / 3 :=
      MAX_BOUNCE_ANGLE_eq ▸ bounce_angle_abs_le b p
    have h3 := abs_sin_le_sqrt3_cos hba
    have hs := post_bounce_speed_nonneg b hf
    have hcos := cos_bounce_angle_nonneg b p
    rw [reflect_from_paddle_velocity_eq]
    show |Real.sin (b.bounce_angle p) * b.post_bounce_speed| ≤
      Real.sqrt 3 * |Real.cos (b.bounce_angle p) * b.post_bounce_speed * b.bounce_direction|
    rw [abs_mul, abs_of_nonneg hs, abs_mul, abs_mul, bounce_direction_abs,
      abs_of_nonneg hcos, abs_of_nonneg hs]
    have := mul_le_mul_of_nonneg_right h3 hs
    nlinarith [this]

/-- Witness for C2 at the sample ball and paddle. -/
theorem reflect_from_paddle_velocity_witness :
    |Ball.bounce_angle sampleBall samplePaddle| ≤ MAX_BOUNCE_ANGLE ∧
    |(sampleBall.reflect_from_paddle samplePaddle).velocity.y| ≤
      Real.sqrt 3 * |(sampleBall.reflect_from_paddle samplePaddle).velocity.x| :=
  ⟨(reflect_from_paddle_velocity sampleBall samplePaddle
      (by norm_num [sampleBall])).2.2.2.2.1,
   (reflect_from_paddle_velocity sampleBall samplePaddle
      (by norm_num [sampleBall])).2.2.2.2.2⟩

/-! ### C4: acceleration multiplies the speed on every paddle hit -/

lemma reflect_iterate_fields (b : Ball) (p : Paddle) (n : ℕ) :
    ((fun c => c.reflect_from_paddle p)^[n] b).acceleration_factor = b.acceleration_factor ∧
    ((fun c => c.reflect_from_paddle p)^[n] b).acceleration_enabled = b.acceleration_enabled := by
  induction n with
  | zero => exact ⟨rfl, rfl⟩
  | succ n ih =>
    rw [Function.iterate_succ_apply']
    exact ih

/-- C4: every paddle bounce multiplies the speed by the acceleration
factor when acceleration is enabled and preserves it exactly otherwise;
with acceleration on, the speed after `n` consecutive hits is the initial
speed times `accelerationFactor ^ n`. -/
theorem reflect_speed_acceleration (b : Ball) (p : Paddle)
    (hf : 0 ≤ b.acceleration_factor) :
    (b.acceleration_enabled = true →
      (b.reflect_from_paddle p).velocity.magnitude =
        b.velocity.magnitude * b.acceleration_factor) ∧
    (b.acceleration_enabled = false →
      (b.reflect_from_paddle p).velocity.magnitude = b.velocity.magnitude) ∧
    (b.acceleration_enabled = true → ∀ n : ℕ,
      ((fun c => c.reflect_from_paddle p)^[n] b).velocity.magnitude =
        b.velocity.magnitude * b.acceleration_factor ^ n) := by
  refine ⟨fun he => ?_, fun he => ?_, fun he n => ?_⟩
  · rw [reflect_from_paddle_speed b p hf]
    unfold Ball.post_bounce_speed
    rw [if_pos he]
  · rw [reflect_from_paddle_speed b p hf]
    unfold Ball.post_bounce_speed
    rw [if_neg (by simp [he])]
  · induction n with
    | zero => simp
    | succ n ih =>
      have hfields := reflect_iterate_fields b p n
      rw [Function.iterate_succ_apply',
        reflect_from_paddle_speed _ p (hfields.1 ▸ hf)]
      unfold Ball.post_bounce_speed
      rw [if_pos (by rw [hfields.2, he]), ih, hfields.1]
      ring

/-- Witness for C4: one accelerated hit of the sample ball multiplies its
speed by the factor. -/
theorem reflect_speed_acceleration_witness :
    (sampleBall.reflect_from_paddle samplePaddle).velocity.magnitude =
      sampleBall.velocity.magnitude * sampleBall.acceleration_factor :=
  (reflect_speed_acceleration sampleBall samplePaddle (by norm_num [sampleBall])).1 rfl

/-! ### C10: the `velocity.x = 0` direction edge case -/

/-- A ball whose horizontal velocity is exactly zero, for the C10 witness. -/
noncomputable def stalledBall : Ball := { sampleBall with velocity := ⟨0, 100⟩ }

/-- C10: the bounce direction is `+1` exactly when the incoming horizontal
velocity is negative; at `velocity.x = 0` the code picks `-1`, so the
outgoing horizontal velocity is non-positive (leftward), and any
non-negative incoming `velocity.x` likewise yields a non-positive outgoing
one, while a negative incoming `velocity.x` yields a non-negative one. -/
theorem bounce_direction_zero_vx (b : Ball) (p : Paddle)
    (hf : 0 ≤ b.acceleration_factor) :
    (b.bounce_direction = 1 ↔ b.velocity.x < 0) ∧
    (b.velocity.x = 0 → b.bounce_direction = -1 ∧
      (b.reflect_from_paddle p).velocity.x ≤ 0) ∧
    (0 ≤ b.velocity.x → (b.reflect_from_paddle p).velocity.x ≤ 0) ∧
    (b.velocity.x < 0 → 0 ≤ (b.reflect_from_paddle p).velocity.x) := by
  have hcos := cos_bounce_angle_nonneg b p
  have hs := post_bounce_speed_nonneg b hf
  have hnn : 0 ≤ Real.cos (b.bounce_angle p) * b.post_bounce_speed := mul_nonneg hcos hs
  have hxval : (b.reflect_from_paddle p).velocity.x =
      Real.cos (b.bounce_angle p) * b.post_bounce_speed * b.bounce_direction := rfl
  have hpos : 0 ≤ b.velocity.x → (b.reflect_from_paddle p).velocity.x ≤ 0 := by
    intro h
    rw [hxval]
    unfold Ball.bounce_direction
    rw [if_neg (by linarith)]
    nlinarith [hnn]
  refine ⟨?_, fun h => ⟨?_, hpos (le_of_eq h.symm)⟩, hpos, fun h => ?_⟩
  · unfold Ball.bounce_direction
    split_ifs with h
    · simp [h]
    · exact iff_of_false (by norm_num) h
  · unfold Ball.bounce_direction
    rw [if_neg (by rw [h]; exact lt_irrefl 0)]
  · rw [hxval]
    unfold Ball.bounce_direction
    rw [if_pos h]
    nlinarith [hnn]

/-- Witness for C10: the stalled sample ball (zero horizontal velocity)
gets direction `-1` and a non-positive outgoing horizontal velocity. -/
theorem bounce_direction_zero_vx_witness :
    Ball.bounce_direction stalledBall = -1 ∧
    (stalledBall.reflect_from_paddle samplePaddle).velocity.x ≤ 0 :=
  (bounce_direction_zero_vx stalledBall samplePaddle
      (by norm_num [stalledBall, sampleBall])).2.1 (by norm_num [stalledBall, sampleBall])

/-! ### C6: `reset` -/

lemma abs_sin_le_cos {a : ℝ} (ha : |a| ≤ Real.pi / 4) :
    |Real.sin a| ≤ Real.cos a := by
  have hpi := Real.pi_pos
  obtain ⟨hl, hr⟩ := abs_le.1 ha
  have h1 : 0 ≤ Real.cos (a + Real.pi / 4) :=
    Real.cos_nonneg_of_mem_Icc ⟨by linarith, by linarith⟩
  have h2 : 0 ≤ Real.cos (a - Real.pi / 4) :=
    Real.cos_nonneg_of_mem_Icc ⟨by linarith, by linarith⟩
  rw [Real.cos_add, Real.cos_pi_div_four, Real.sin_pi_div_four] at h1
  rw [Real.cos_sub, Real.cos_pi_div_four, Real.sin_pi_div_four] at h2
  have hs2 : (0 : ℝ) < Real.sqrt 2 := Real.sqrt_pos.2 (by norm_num)
  have hsq : Real.sqrt 2 ^ 2 = 2 := Real.sq_sqrt (by norm_num)
  rw [abs_le]
  constructor <;> nlinarith [h1, h2, hs2, hsq]

/-- C6: `reset(x, y)` with drawn `angle` and `direction` puts the ball at
`(x, y)` with velocity
`(cos(angle) * direction * baseSpeed, sin(angle) * baseSpeed)`; for any
draw with `|angle| ≤ 45°` and `direction ∈ {1, -1}` the speed is exactly
`baseSpeed` and the trajectory is within 45° of horizontal
(`|v.y| ≤ |v.x|`), regardless of the prior (accelerated) velocity. -/
theorem reset_spec (b : Ball) (x y angle direction : ℝ)
    (ha : |angle| ≤ Real.pi / 4) (hd : direction = 1 ∨ direction = -1)
    (hb : 0 ≤ b.base_speed) :
    (b.reset x y angle direction).position = ⟨x, y⟩ ∧
    (b.reset x y angle direction).velocity =
      ⟨Real.cos angle * direction * b.base_speed, Real.sin angle * b.base_speed⟩ ∧
    (b.reset x y angle direction).velocity.magnitude = b.base_speed ∧
    |(b.reset x y angle direction).velocity.y| ≤
      |(b.reset x y angle direction).velocity.x| := by
  have hd2 : direction ^ 2 = 1 := by rcases hd with h | h <;> rw [h] <;> norm_num
  have hdabs : |direction| = 1 := by rcases hd with h | h <;> rw [h] <;> norm_num
  have hcos : 0 ≤ Real.cos angle := by
    obtain ⟨hl, hr⟩ := abs_le.1 ha
    have hpi := Real.pi_pos
    exact Real.cos_nonneg_of_mem_Icc ⟨by linarith, by linarith⟩
  refine ⟨rfl, rfl, ?_, ?_⟩
  · show Vector2D.magnitude
      ⟨Real.cos angle * direction * b.base_speed, Real.sin angle * b.base_speed⟩ = b.base_speed
    unfold Vector2D.magnitude
    have key : (Real.cos angle * direction * b.base_speed) ^ 2 +
        (Real.sin angle * b.base_speed) ^ 2 = b.base_speed ^ 2 := by
      linear_combination Real.cos angle ^ 2 * b.base_speed ^ 2 * hd2 +
        b.base_speed ^ 2 * Real.sin_sq_add_cos_sq angle
    rw [key]
    exact Real.sqrt_sq hb
  · show |Real.sin angle * b.base_speed| ≤ |Real.cos angle * direction * b.base_speed|
    rw [abs_mul, abs_mul, abs_mul, hdabs, abs_of_nonneg hb, abs_of_nonneg hcos]
    have h := abs_sin_le_cos ha
    nlinarith [mul_le_mul_of_nonneg_right h hb]

/-- Witness for C6 with the draw `angle = 0`, `direction = 1`. -/
theorem reset_spec_witness :
    (sampleBall.reset 540 360 0 1).velocity.magnitude = sampleBall.base_speed ∧
    |(sampleBall.reset 540 360 0 1).velocity.y| ≤
      |(sampleBall.reset 540 360 0 1).velocity.x| :=
  ⟨(reset_spec sampleBall 540 360 0 1 (by rw [abs_zero]; positivity) (Or.inl rfl)
      (by norm_num [sampleBall])).2.2.1,
   (reset_spec sampleBall 540 360 0 1 (by rw [abs_zero]; positivity) (Or.inl rfl)
      (by norm_num [sampleBall])).2.2.2⟩

/-! ### C1: closest-point paddle collision detection -/

/-- C1: the collision flag of `check_paddle_collision` is set exactly when
the distance from the clamped closest point of the paddle rectangle to the
ball center is at most the radius; in particular, a ball diagonally
outside the bottom-right corner collides at distance exactly `radius` and
does not at distance `radius + ε` for any `ε > 0`. -/
theorem check_paddle_collision_iff (b : Ball) (p : Paddle)
    (hw : 0 ≤ p.width) (hh : 0 ≤ p.height) :
    ((b.check_paddle_collision p).2 = true ↔
      (b.position.sub
        ⟨max p.position.x (min b.position.x (p.position.x + p.width)),
         max p.position.y (min b.position.y (p.position.y + p.height))⟩).magnitude ≤
        b.radius) ∧
    (p.position.x + p.width ≤ b.position.x → p.position.y + p.height ≤ b.position.y →
      ((b.position.sub ⟨p.position.x + p.width, p.position.y + p.height⟩).magnitude =
          b.radius → (b.check_paddle_collision p).2 = true) ∧
      (∀ ε : ℝ, 0 < ε →
        (b.position.sub ⟨p.position.x + p.width, p.position.y + p.height⟩).magnitude =
          b.radius + ε → (b.check_paddle_collision p).2 = false)) := by
  have hP : b.paddle_distance p =
      (b.position.sub
        ⟨max p.position.x (min b.position.x (p.position.x + p.width)),
         max p.position.y (min b.position.y (p.position.y + p.height))⟩).magnitude := rfl
  constructor
  · rw [Ball.check_paddle_collision]
    split_ifs with h
    · exact iff_of_true rfl (hP ▸ h)
    · exact iff_of_false (by simp) (fun hc => h (hP ▸ hc))
  · intro hx hy
    have hcorner : b.paddle_distance p =
        (b.position.sub ⟨p.position.x + p.width, p.position.y + p.height⟩).magnitude := by
      rw [hP, min_eq_right hx, max_eq_right (by linarith),
        min_eq_right hy, max_eq_right (by linarith)]
    constructor
    · intro heq
      rw [Ball.check_paddle_collision, if_pos (by rw [hcorner, heq])]
    · intro ε hε heq
      rw [Ball.check_paddle_collision, if_neg (by rw [hcorner, heq]; linarith)]

/-- A ball lying diagonally outside the sample paddle's bottom-right
corner at distance exactly its radius. -/
noncomputable def cornerBall : Ball :=
  { sampleBall with position := ⟨68, 414⟩, radius := 5 }

/-- Witness for C1: the corner ball, at distance exactly `radius` from the
bottom-right corner of the sample paddle, collides. -/
theorem check_paddle_collision_iff_witness :
    (cornerBall.check_paddle_collision samplePaddle).2 = true :=
  ((check_paddle_collision_iff cornerBall samplePaddle
      (by norm_num [samplePaddle]) (by norm_num [samplePaddle])).2
    (by norm_num [cornerBall, sampleBall, samplePaddle])
    (by norm_num [cornerBall, sampleBall, samplePaddle])).1
    (by
      show Real.sqrt (((68 : ℝ) - (50 + 15)) ^ 2 + ((414 : ℝ) - (310 + 100)) ^ 2) = 5
      rw [show ((68 : ℝ) - (50 + 15)) ^ 2 + ((414 : ℝ) - (310 + 100)) ^ 2 = 5 ^ 2 by
        norm_num]
      exact Real.sqrt_sq (by norm_num))

/-! ### C9: collision resolution order in `Game.update` -/

/-- C9: the collision phase of `Game.update` equals the spec's pipeline
(left paddle, then right paddle, then walls), and whenever the ball
overlaps the left paddle, the left paddle's response is applied to the
incoming ball state before the right paddle is even consulted — the
left-first tie-break. -/
theorem update_collision_order (b : Ball) (lp rp : Paddle) :
    collisionPhase b lp rp = collisionPhaseSpec lp rp b ∧
    (b.paddle_distance lp ≤ b.radius →
      collisionPhase b lp rp =
        (((b.paddle_respond lp).check_paddle_collision rp).1.check_wall_collision).1) := by
  refine ⟨rfl, fun h => ?_⟩
  have h1 : (b.check_paddle_collision lp).1 = b.paddle_respond lp := by
    rw [Ball.check_paddle_collision, if_pos h]
  show ((((b.check_paddle_collision lp).1).check_paddle_collision rp).1.check_wall_collision).1 =
    (((b.paddle_respond lp).check_paddle_collision rp).1.check_wall_collision).1
  rw [h1]

/-- A ball whose center lies inside the sample (left) paddle. -/
noncomputable def insideBall : Ball := { sampleBall with position := ⟨55, 350⟩ }

/-- The right paddle as constructed in `Game.__init__`. -/
def rightPaddle : Paddle := { samplePaddle with position := ⟨1015, 310⟩ }

/-- Witness for C9: with the ball overlapping the left paddle, the phase
applies the left paddle's response first. -/
theorem update_collision_order_witness :
    collisionPhase insideBall samplePaddle rightPaddle =
      (((insideBall.paddle_respond samplePaddle).check_paddle_collision
          rightPaddle).1.check_wall_collision).1 := by
  apply (update_collision_order insideBall samplePaddle rightPaddle).2
  have hzero : Ball.paddle_distance insideBall samplePaddle = Real.sqrt 0 := by
    unfold Ball.paddle_distance
    norm_num [insideBall, sampleBall, samplePaddle, Vector2D.sub, Vector2D.magnitude,
      min_def, max_def]
  rw [hzero, Real.sqrt_zero]
  norm_num [insideBall, sampleBall]

end Pong
